import Mathlib

set_option maxHeartbeats 1000000

-- Shallow embedding of the gcp-pubsub-create-topic GitHub Action
-- (src/index.ts and src/pubsub.ts).  Pure helpers (parseLabels,
-- validateTopicName, parseDuration) are transliterated directly; the
-- Pub/Sub client is modelled as an environment of call responses and
-- createTopic additionally returns the trace of service calls it made.

-- JavaScript values as produced by JSON.parse, to the extent parseLabels
-- inspects them.  A number keeps its source lexeme: the program only ever
-- looks at a number's type, never its value.
inductive JSValue where
  | str (value : String)
  | num (lexeme : String)
  | bool (value : Bool)
  | null
  | arr (items : List JSValue)
  | obj (props : List (String × JSValue))

def isDigitChar (c : Char) : Bool := 48 ≤ c.toNat && c.toNat ≤ 57

def isJsonWs (c : Char) : Bool := c == ' ' || c == '\x09' || c == '\x0a' || c == '\x0d'

def skipWs (cs : List Char) : List Char := cs.dropWhile isJsonWs

def hexVal (c : Char) : Option Nat :=
  let n := c.toNat
  if 48 ≤ n && n ≤ 57 then some (n - 48)
  else if 97 ≤ n && n ≤ 102 then some (n - 87)
  else if 65 ≤ n && n ≤ 70 then some (n - 55)
  else none

-- Body of a JSON string literal, after the opening quote.
def parseStringBody : Nat → List Char → String → Except String (String × List Char)
  | 0, _, _ => .error "Unterminated string in JSON"
  | _ + 1, [], _ => .error "Unterminated string in JSON"
  | fuel + 1, c :: cs, acc =>
    if c == '"' then .ok (acc, cs)
    else if c == '\\' then
      match cs with
      | [] => .error "Unterminated string in JSON"
      | e :: cs' =>
        if e == '"' then parseStringBody fuel cs' (acc.push '"')
        else if e == '\\' then parseStringBody fuel cs' (acc.push '\\')
        else if e == '/' then parseStringBody fuel cs' (acc.push '/')
        else if e == 'b' then parseStringBody fuel cs' (acc.push (Char.ofNat 8))
        else if e == 'f' then parseStringBody fuel cs' (acc.push (Char.ofNat 12))
        else if e == 'n' then parseStringBody fuel cs' (acc.push '\n')
        else if e == 'r' then parseStringBody fuel cs' (acc.push '\r')
        else if e == 't' then parseStringBody fuel cs' (acc.push '\t')
        else if e == 'u' then
          match cs' with
          | h1 :: h2 :: h3 :: h4 :: cs'' =>
            match hexVal h1, hexVal h2, hexVal h3, hexVal h4 with
            | some a, some b, some c3, some d =>
              parseStringBody fuel cs'' (acc.push (Char.ofNat (d + 16 * (c3 + 16 * (b + 16 * a)))))
            | _, _, _, _ => .error "Bad Unicode escape in JSON"
          | _ => .error "Bad Unicode escape in JSON"
        else .error "Bad escaped character in JSON"
    else if c.toNat < 32 then .error "Bad control character in string literal in JSON"
    else parseStringBody fuel cs (acc.push c)

def spanDigits (cs : List Char) : List Char × List Char :=
  (cs.takeWhile isDigitChar, cs.dropWhile isDigitChar)

def parseFrac (cs : List Char) : Except String (String × List Char) :=
  match cs with
  | '.' :: rest =>
    let p := spanDigits rest
    if p.1.isEmpty then .error "Unterminated fractional number in JSON"
    else .ok ("." ++ String.mk p.1, p.2)
  | _ => .ok ("", cs)

def parseExp (cs : List Char) : Except String (String × List Char) :=
  match cs with
  | e :: rest =>
    if e == 'e' || e == 'E' then
      let sr : String × List Char :=
        match rest with
        | '+' :: r => ("+", r)
        | '-' :: r => ("-", r)
        | _ => ("", rest)
      let p := spanDigits sr.2
      if p.1.isEmpty then .error "Exponent part is missing a number in JSON"
      else .ok (String.singleton e ++ sr.1 ++ String.mk p.1, p.2)
    else .ok ("", cs)
  | [] => .ok ("", [])

def parseNumberLexeme (cs : List Char) : Except String (String × List Char) :=
  let sr : String × List Char :=
    match cs with
    | '-' :: rest => ("-", rest)
    | _ => ("", cs)
  match sr.2 with
  | [] => .error "No number after minus sign in JSON"
  | c :: rest =>
    if c == '0' then
      match parseFrac rest with
      | .error e => .error e
      | .ok (f, cs₂) =>
        match parseExp cs₂ with
        | .error e => .error e
        | .ok (ex, cs₃) => .ok (sr.1 ++ "0" ++ f ++ ex, cs₃)
    else if isDigitChar c then
      let p := spanDigits rest
      match parseFrac p.2 with
      | .error e => .error e
      | .ok (f, cs₃) =>
        match parseExp cs₃ with
        | .error e => .error e
        | .ok (ex, cs₄) => .ok (sr.1 ++ String.mk (c :: p.1) ++ f ++ ex, cs₄)
    else .error "Unexpected token in JSON"

-- JavaScript object-property assignment: an existing key keeps its
-- position and is overwritten, a new key is appended.
def objInsert : List (String × JSValue) → String → JSValue → List (String × JSValue)
  | [], k, v => [(k, v)]
  | (k', v') :: rest, k, v =>
    if k' == k then (k', v) :: rest else (k', v') :: objInsert rest k v

mutual

def parseJsonValue : Nat → List Char → Except String (JSValue × List Char)
  | 0, _ => .error "JSON value nesting too deep"
  | fuel + 1, cs =>
    match skipWs cs with
    | [] => .error "Unexpected end of JSON input"
    | c :: rest =>
      if c == '{' then
        match skipWs rest with
        | '}' :: rest' => .ok (.obj [], rest')
        | _ =>
          match parseJsonMembers fuel (skipWs rest) [] with
          | .ok (kvs, rest') => .ok (.obj kvs, rest')
          | .error e => .error e
      else if c == '[' then
        match skipWs rest with
        | ']' :: rest' => .ok (.arr [], rest')
        | _ =>
          match parseJsonElems fuel (skipWs rest) [] with
          | .ok (vs, rest') => .ok (.arr vs, rest')
          | .error e => .error e
      else if c == '"' then
        match parseStringBody (rest.length + 1) rest "" with
        | .ok (s, rest') => .ok (.str s, rest')
        | .error e => .error e
      else if c == 't' then
        match rest with
        | 'r' :: 'u' :: 'e' :: rest' => .ok (.bool true, rest')
        | _ => .error "Unexpected token in JSON"
      else if c == 'f' then
        match rest with
        | 'a' :: 'l' :: 's' :: 'e' :: rest' => .ok (.bool false, rest')
        | _ => .error "Unexpected token in JSON"
      else if c == 'n' then
        match rest with
        | 'u' :: 'l' :: 'l' :: rest' => .ok (.null, rest')
        | _ => .error "Unexpected token in JSON"
      else if c == '-' || isDigitChar c then
        match parseNumberLexeme (c :: rest) with
        | .ok (lex, rest') => .ok (.num lex, rest')
        | .error e => .error e
      else .error "Unexpected token in JSON"

def parseJsonMembers :
    Nat → List Char → List (String × JSValue) →
    Except String (List (String × JSValue) × List Char)
  | 0, _, _ => .error "JSON object nesting too deep"
  | fuel + 1, cs, acc =>
    match skipWs cs with
    | '"' :: rest =>
      match parseStringBody (rest.length + 1) rest "" with
      | .error e => .error e
      | .ok (key, rest₁) =>
        match skipWs rest₁ with
        | ':' :: rest₂ =>
          match parseJsonValue fuel rest₂ with
          | .error e => .error e
          | .ok (v, rest₃) =>
            match skipWs rest₃ with
            | ',' :: rest₄ => parseJsonMembers fuel rest₄ (objInsert acc key v)
            | '}' :: rest₄ => .ok (objInsert acc key v, rest₄)
            | _ => .error "Expected comma or closing brace after object member in JSON"
        | _ => .error "Expected colon after property name in JSON"
    | _ => .error "Expected property name in JSON"

def parseJsonElems :
    Nat → List Char → List JSValue → Except String (List JSValue × List Char)
  | 0, _, _ => .error "JSON array nesting too deep"
  | fuel + 1, cs, acc =>
    match parseJsonValue fuel cs with
    | .error e => .error e
    | .ok (v, rest) =>
      match skipWs rest with
      | ',' :: rest' => parseJsonElems fuel rest' (acc ++ [v])
      | ']' :: rest' => .ok (acc ++ [v], rest')
      | _ => .error "Expected comma or closing bracket after array element in JSON"

end

-- Models the JavaScript builtin JSON.parse (ECMA-404 grammar; surrogate
-- pairing of Unicode escapes is not modelled).
def jsonParse (text : String) : Except String JSValue :=
  match parseJsonValue (text.length + 1) text.data with
  | .error e => .error e
  | .ok (v, rest) =>
    match skipWs rest with
    | [] => .ok v
    | _ => .error "Unexpected non-whitespace character after JSON data"

-- Models the JavaScript typeof operator on JSON-representable values.
def jsTypeof : JSValue → String
  | .null => "object"
  | .bool _ => "boolean"
  | .num _ => "number"
  | .str _ => "string"
  | .arr _ => "object"
  | .obj _ => "object"

-- Models Object.entries: own enumerable properties.  Primitives box to
-- property-less wrappers, strings expose index-keyed characters, null
-- throws a TypeError.
def jsEntries : JSValue → Except String (List (String × JSValue))
  | .null => .error "Cannot convert undefined or null to object"
  | .bool _ => .ok []
  | .num _ => .ok []
  | .str s => .ok (s.data.enum.map fun p => (toString p.1, JSValue.str p.2.toString))
  | .arr vs => .ok (vs.enum.map fun p => (toString p.1, p.2))
  | .obj kvs => .ok kvs

def labelTypeErrorMsg (key : String) (v : JSValue) : String :=
  "Label \"" ++ key ++ "\" must be a string, got " ++ jsTypeof v ++
  ". All labels must be strings."

-- The for-loop of parseLabels: copies entries, throwing at the first
-- non-string value.
def checkLabelValues : List (String × JSValue) → Except String (List (String × String))
  | [] => .ok []
  | (k, v) :: rest =>
    match v with
    | .str s =>
      match checkLabelValues rest with
      | .ok ls => .ok ((k, s) :: ls)
      | .error e => .error e
    | _ => .error (labelTypeErrorMsg k v)

-- parseLabels from src/pubsub.ts: JSON.parse, then per-entry string check,
-- with any error of the try-block wrapped into a "Failed to parse labels" error.
def parseLabels (labelsJson : String) : Except String (List (String × String)) :=
  let body : Except String (List (String × String)) :=
    match jsonParse labelsJson with
    | .error e => .error e
    | .ok parsed =>
      match jsEntries parsed with
      | .error e => .error e
      | .ok entries => checkLabelValues entries
  match body with
  | .ok labels => .ok labels
  | .error e => .error ("Failed to parse labels: " ++ e)

example : parseLabels "\x7b\"a\":\"1\",\"b\":\"2\"\x7d" = .ok [("a", "1"), ("b", "2")] := rfl

example : parseLabels "\x7b\"a\":1\x7d" =
    .error "Failed to parse labels: Label \"a\" must be a string, got number. All labels must be strings." := rfl

example : parseLabels "5" = .ok [] := rfl

example : parseLabels "true" = .ok [] := rfl

example : parseLabels "\"ab\"" = .ok [("0", "a"), ("1", "b")] := rfl

example : parseLabels "null" =
    .error "Failed to parse labels: Cannot convert undefined or null to object" := rfl

example : (parseLabels "not json").isOk = false := rfl

-- validateTopicName from src/pubsub.ts: test of the anchored regular
-- expression [a-zA-Z][a-zA-Z0-9._~+%-] with body repetition 2..254.

def isTopicLetter (c : Char) : Bool :=
  ('a' ≤ c && c ≤ 'z') || ('A' ≤ c && c ≤ 'Z')

def isTopicBodyChar (c : Char) : Bool :=
  isTopicLetter c || isDigitChar c ||
  c == '.' || c == '_' || c == '~' || c == '+' || c == '%' || c == '-'

def topicPatternTest (s : String) : Bool :=
  match s.data with
  | [] => false
  | c :: rest =>
    isTopicLetter c && decide (2 ≤ rest.length) && decide (rest.length ≤ 254) &&
    rest.all isTopicBodyChar

def invalidTopicNameMsg (topicName : String) : String :=
  "Invalid topic name: \"" ++ topicName ++
  "\". Topic names must start with a letter and be 3-255 characters long, " ++
  "containing only letters, numbers, and ._~+%-"

def validateTopicName (topicName : String) : Except String Unit :=
  if topicPatternTest topicName then .ok () else .error (invalidTopicNameMsg topicName)

-- parseDuration from src/pubsub.ts.

-- The output shape of parseDuration: seconds and nanos are both optional
-- fields of the returned object.
structure JsonDuration where
  seconds : Option Nat := none
  nanos : Option Nat := none
deriving DecidableEq

-- Matcher for the anchored regular expression (\d+)([dhms]): one or more
-- digits followed by a single unit letter.
def durMatchAux : List Char → Option (List Char × Char)
  | [] => none
  | [u] => if u == 'd' || u == 'h' || u == 'm' || u == 's' then some ([], u) else none
  | c :: c' :: cs =>
    if isDigitChar c then
      match durMatchAux (c' :: cs) with
      | some p => some (c :: p.1, p.2)
      | none => none
    else none

def durationMatch (s : String) : Option (List Char × Char) :=
  match durMatchAux s.data with
  | some (ds, u) => if ds.isEmpty then none else some (ds, u)
  | none => none

-- parseInt on a nonempty digit string, base 10.
def digitVal (c : Char) : Nat := c.toNat - 48

def digitsToNat (ds : List Char) : Nat :=
  ds.foldl (fun n c => 10 * n + digitVal c) 0

-- The switch statement of parseDuration; seconds is initialised to 0 and
-- there is no default case.
def unitFactor (u : Char) : Nat :=
  if u == 'd' then 86400
  else if u == 'h' then 3600
  else if u == 'm' then 60
  else if u == 's' then 1
  else 0

def invalidDurationMsg (duration : String) : String :=
  "Invalid duration format: \"" ++ duration ++
  "\". Use format like \"7d\" (days), \"600s\" (seconds), \"1h\" (hours), or \"30m\" (minutes)"

def parseDuration (duration : String) : Except String JsonDuration :=
  match durationMatch duration with
  | none => .error (invalidDurationMsg duration)
  | some (ds, u) => .ok { seconds := some (digitsToNat ds * unitFactor u), nanos := none }

example : parseDuration "7d" = .ok { seconds := some 604800, nanos := none } := rfl

example : parseDuration "600s" = .ok { seconds := some 600, nanos := none } := rfl

example : parseDuration "1h" = .ok { seconds := some 3600, nanos := none } := rfl

example : (parseDuration "5x").isOk = false := rfl

example : (parseDuration "d5").isOk = false := rfl

-- JavaScript String.prototype.trim: strips WhiteSpace and LineTerminator
-- code points from both ends (non-ASCII space separators beyond NBSP and
-- BOM are not modelled).
def jsTrimChar (c : Char) : Bool :=
  c == ' ' || c == '\t' || c == '\n' || c == '\r' ||
  c == Char.ofNat 11 || c == Char.ofNat 12 || c == Char.ofNat 160 || c == Char.ofNat 65279

def jsTrim (s : String) : String :=
  String.mk (((s.data.dropWhile jsTrimChar).reverse.dropWhile jsTrimChar).reverse)

-- JavaScript String.prototype.toLowerCase, restricted to ASCII.
def asciiLower (c : Char) : Char :=
  if 'A' ≤ c && c ≤ 'Z' then Char.ofNat (c.toNat + 32) else c

def jsToLowerCase (s : String) : String :=
  String.mk (s.data.map asciiLower)

-- Boundary parsing of the skip-if-exists input in src/index.ts:
-- core.getInput trims the raw value, an empty result falls back to the
-- literal "false", and the flag is the case-insensitive comparison with
-- "true".  No spelling is ever rejected.
def parseSkipIfExists (raw : String) : Bool :=
  let skipIfExistsStr := if jsTrim raw == "" then "false" else jsTrim raw
  jsToLowerCase skipIfExistsStr == "true"

example : parseSkipIfExists "true" = true := by decide

example : parseSkipIfExists "TRUE" = true := by decide

example : parseSkipIfExists "" = false := by decide

example : parseSkipIfExists "yes" = false := by decide

-- The Pub/Sub orchestration model.

structure TopicConfig where
  topicName : String
  skipIfExists : Bool
  labels : Option String := none
  kmsKeyName : Option String := none
  messageRetentionDuration : Option String := none

structure TopicResult where
  success : Bool
  topicName : Option String := none
  created : Option Bool := none
  error : Option String := none
deriving DecidableEq

-- The metadata object assembled before topic.setMetadata.
structure TopicMetadata where
  labels : Option (List (String × String)) := none
  kmsKeyName : Option String := none
  messageRetentionDuration : Option JsonDuration := none
deriving DecidableEq

-- JavaScript truthiness of an optional string: undefined and "" are falsy.
def strTruthy : Option String → Bool
  | none => false
  | some s => s != ""

def fullTopicName (projectId topicName : String) : String :=
  "projects/" ++ projectId ++ "/topics/" ++ topicName

-- The external Pub/Sub service, modelled as the responses its three
-- operations would give during one invocation.  A topic handle is
-- modelled by its fully-qualified name, the only field the program reads.
structure PubSubEnv where
  projectId : String
  existsResp : Except String Bool
  createResp : Except String Unit
  setMetadataResp : Except String Unit

inductive PubSubCall where
  | existsCall (resp : Except String Bool)
  | createCall (resp : Except String Unit)
  | setMetadataCall (md : TopicMetadata) (resp : Except String Unit)

structure ExistsCheckResult where
  found : Bool
  topic : Option String
deriving DecidableEq

-- checkTopicExists from src/pubsub.ts.  The second component is the list
-- of warning lines logged; a failing existence query is swallowed into a
-- warning and a negative answer.
def checkTopicExists (env : PubSubEnv) (topicName : String) :
    ExistsCheckResult × List String :=
  match env.existsResp with
  | .ok b =>
    ({ found := b
       topic := if b then some (fullTopicName env.projectId topicName) else none }, [])
  | .error e => ({ found := false, topic := none }, ["Failed to check if topic exists: " ++ e])

def alreadyExistsMsg (topicName : String) : String :=
  "Topic \"" ++ topicName ++ "\" already exists. " ++
  "Set skip-if-exists=true to succeed when topic exists."

-- The metadata-assembly block of createTopic: labels, then kmsKeyName,
-- then messageRetentionDuration; the first parser error aborts.
def buildMetadata (config : TopicConfig) : Except String TopicMetadata :=
  match (if strTruthy config.labels then
           (parseLabels (config.labels.getD "")).map some
         else .ok none) with
  | .error e => .error e
  | .ok ls =>
    match (if strTruthy config.messageRetentionDuration then
             (parseDuration (config.messageRetentionDuration.getD "")).map some
           else .ok none) with
    | .error e => .error e
    | .ok dur =>
      .ok { labels := ls
            kmsKeyName := if strTruthy config.kmsKeyName then config.kmsKeyName else none
            messageRetentionDuration := dur }

-- createTopic from src/pubsub.ts.  Returns the TopicResult together with
-- the trace of service calls made (each with the response it received);
-- any thrown error is caught and becomes success := false with the
-- error's message.
def createTopic (env : PubSubEnv) (config : TopicConfig) :
    TopicResult × List PubSubCall :=
  match validateTopicName config.topicName with
  | .error e => ({ success := false, error := some e }, [])
  | .ok _ =>
    let existsCheck := (checkTopicExists env config.topicName).1
    let trace₀ : List PubSubCall := [.existsCall env.existsResp]
    if existsCheck.found && existsCheck.topic.isSome then
      if config.skipIfExists then
        ({ success := true, topicName := existsCheck.topic, created := some false }, trace₀)
      else
        ({ success := false, error := some (alreadyExistsMsg config.topicName) }, trace₀)
    else
      match env.createResp with
      | .error e => ({ success := false, error := some e }, trace₀ ++ [.createCall (.error e)])
      | .ok _ =>
        let createdName := fullTopicName env.projectId config.topicName
        if strTruthy config.labels || strTruthy config.kmsKeyName ||
            strTruthy config.messageRetentionDuration then
          match buildMetadata config with
          | .error e =>
            ({ success := false, error := some e }, trace₀ ++ [.createCall (.ok ())])
          | .ok md =>
            match env.setMetadataResp with
            | .error e =>
              ({ success := false, error := some e },
               trace₀ ++ [.createCall (.ok ()), .setMetadataCall md (.error e)])
            | .ok _ =>
              ({ success := true, topicName := some createdName, created := some true },
               trace₀ ++ [.createCall (.ok ()), .setMetadataCall md (.ok ())])
        else
          ({ success := true, topicName := some createdName, created := some true },
           trace₀ ++ [.createCall (.ok ())])

-- Abstract service state, used to interpret a call trace: what exists and
-- what metadata was last successfully applied.
structure ServiceState where
  topicExists : Bool
  metadata : Option TopicMetadata
deriving DecidableEq

def applyCall (s : ServiceState) : PubSubCall → ServiceState
  | .existsCall _ => s
  | .createCall (.ok _) => { s with topicExists := true }
  | .createCall (.error _) => s
  | .setMetadataCall md (.ok _) => { s with metadata := some md }
  | .setMetadataCall _ (.error _) => s

def applyCalls (s : ServiceState) (cs : List PubSubCall) : ServiceState :=
  cs.foldl applyCall s

-- A fault-free service whose responses are determined by its state; used
-- for the sequential (idempotence) claims.
def envOfState (projectId : String) (s : ServiceState) : PubSubEnv :=
  { projectId := projectId
    existsResp := .ok s.topicExists
    createResp := .ok ()
    setMetadataResp := .ok () }

def runCreateTopic (projectId : String) (s : ServiceState) (config : TopicConfig) :
    TopicResult × ServiceState :=
  let r := createTopic (envOfState projectId s) config
  (r.1, applyCalls s r.2)

deriving instance DecidableEq for Except

-- Spec-side predicates, written from the specification's words, to be
-- compared with the transliterated code.

-- "start with a letter, 3-255 characters total, only letters, digits,
-- and . _ ~ + % -"
def specTopicNameOk (s : String) : Prop :=
  3 ≤ s.data.length ∧ s.data.length ≤ 255 ∧
  isTopicLetter (s.data.headD '0') = true ∧
  ∀ c ∈ s.data, isTopicBodyChar c = true

-- "text matches the pattern (\d+)([dhms])" anchored at both ends.
def specDurationPattern (s : String) : Prop :=
  ∃ ds u, s.data = ds ++ [u] ∧ ds ≠ [] ∧ (∀ c ∈ ds, isDigitChar c = true) ∧
    (u = 'd' ∨ u = 'h' ∨ u = 'm' ∨ u = 's')

-- needle occurs contiguously inside hay.
def containsStr (hay needle : String) : Prop :=
  needle.data <:+: hay.data

-- Projection of a JavaScript string value.
def jsStrVal : JSValue → String
  | .str t => t
  | _ => ""

theorem data_alreadyExistsMsg (n : String) :
    (alreadyExistsMsg n).data =
      "Topic \"".data ++ n.data ++ "\" already exists. ".data ++
      "Set skip-if-exists=true to succeed when topic exists.".data := by
  simp [alreadyExistsMsg, String.data_append]

/-- C4: a failing existence query is never propagated: checkTopicExists
returns exists := false with no topic handle and only logs a warning. -/
theorem claim_C4 (env : PubSubEnv) (topicName : String) (e : String)
    (hex : env.existsResp = .error e) :
    checkTopicExists env topicName =
      ({ found := false, topic := none }, ["Failed to check if topic exists: " ++ e]) := by
  simp [checkTopicExists, hex]

theorem claim_C4_witness :
    checkTopicExists ⟨"p", .error "PERMISSION_DENIED", .ok (), .ok ()⟩ "events-topic" =
      ({ found := false, topic := none },
       ["Failed to check if topic exists: PERMISSION_DENIED"]) :=
  claim_C4 ⟨"p", .error "PERMISSION_DENIED", .ok (), .ok ()⟩ "events-topic"
    "PERMISSION_DENIED" rfl

/-- C1: when the topic exists and skipIfExists is set, createTopic returns
success with created := false and the fully-qualified existing name, and the
only service call made is the existence query — no create call, no
metadata-update call, whatever labels, kmsKeyName or
messageRetentionDuration the config carries (they are not even parsed). -/
theorem claim_C1 (env : PubSubEnv) (config : TopicConfig)
    (hval : validateTopicName config.topicName = .ok ())
    (hex : env.existsResp = .ok true)
    (hskip : config.skipIfExists = true) :
    createTopic env config =
      ({ success := true,
         topicName := some (fullTopicName env.projectId config.topicName),
         created := some false, error := none },
       [PubSubCall.existsCall (.ok true)]) ∧
    ∀ c ∈ (createTopic env config).2, c = PubSubCall.existsCall (Except.ok true) := by
  have key : createTopic env config =
      ({ success := true,
         topicName := some (fullTopicName env.projectId config.topicName),
         created := some false, error := none },
       [PubSubCall.existsCall (.ok true)]) := by
    simp [createTopic, hval, checkTopicExists, hex, hskip]
  refine ⟨key, ?_⟩
  rw [key]
  intro c hc
  simpa using hc

theorem claim_C1_witness :
    createTopic ⟨"p", .ok true, .ok (), .ok ()⟩
        ⟨"events-topic", true, some "not json", some "kms-key", some "5x"⟩ =
      ({ success := true, topicName := some "projects/p/topics/events-topic",
         created := some false, error := none },
       [PubSubCall.existsCall (.ok true)]) :=
  (claim_C1 ⟨"p", .ok true, .ok (), .ok ()⟩
    ⟨"events-topic", true, some "not json", some "kms-key", some "5x"⟩ rfl rfl rfl).1

/-- C5: when the topic exists and skipIfExists is not set, createTopic fails
with an error message containing "already exists", the topic's name and the
skip-if-exists instruction, after making only the existence query. -/
theorem claim_C5 (env : PubSubEnv) (config : TopicConfig)
    (hval : validateTopicName config.topicName = .ok ())
    (hex : env.existsResp = .ok true)
    (hskip : config.skipIfExists = false) :
    createTopic env config =
      ({ success := false, topicName := none, created := none,
         error := some (alreadyExistsMsg config.topicName) },
       [PubSubCall.existsCall (.ok true)]) ∧
    containsStr (alreadyExistsMsg config.topicName) "already exists" ∧
    containsStr (alreadyExistsMsg config.topicName) config.topicName ∧
    containsStr (alreadyExistsMsg config.topicName) "skip-if-exists" := by
  refine ⟨?_, ?_, ?_, ?_⟩
  · simp [createTopic, hval, checkTopicExists, hex, hskip]
  · have h1 : "already exists".data <:+: "\" already exists. ".data := by decide
    have h2 : "\" already exists. ".data <:+: (alreadyExistsMsg config.topicName).data :=
      ⟨"Topic \"".data ++ config.topicName.data,
       "Set skip-if-exists=true to succeed when topic exists.".data,
       by simp [data_alreadyExistsMsg]⟩
    exact h1.trans h2
  · exact ⟨"Topic \"".data,
      "\" already exists. ".data ++ "Set skip-if-exists=true to succeed when topic exists.".data,
      by simp [data_alreadyExistsMsg]⟩
  · have h1 : "skip-if-exists".data <:+:
        "Set skip-if-exists=true to succeed when topic exists.".data := by decide
    have h2 : "Set skip-if-exists=true to succeed when topic exists.".data <:+:
        (alreadyExistsMsg config.topicName).data :=
      ⟨"Topic \"".data ++ config.topicName.data ++ "\" already exists. ".data, [],
       by simp [data_alreadyExistsMsg]⟩
    exact h1.trans h2

theorem claim_C5_witness :
    createTopic ⟨"p", .ok true, .ok (), .ok ()⟩ ⟨"events-topic", false, none, none, none⟩ =
      ({ success := false, topicName := none, created := none,
         error := some "Topic \"events-topic\" already exists. Set skip-if-exists=true to succeed when topic exists." },
       [PubSubCall.existsCall (.ok true)]) :=
  (claim_C5 ⟨"p", .ok true, .ok (), .ok ()⟩ ⟨"events-topic", false, none, none, none⟩
    rfl rfl rfl).1

/-- C2: when the topic did not exist, creation succeeded, metadata was
requested and assembled, and the single metadata-update call fails,
createTopic returns success := false carrying that failure message, yet the
trace shows the topic was created and left without the requested metadata. -/
theorem claim_C2 (env : PubSubEnv) (config : TopicConfig) (md : TopicMetadata) (e : String)
    (hval : validateTopicName config.topicName = .ok ())
    (hex : env.existsResp = .ok false)
    (hcreate : env.createResp = .ok ())
    (hreq : (strTruthy config.labels || strTruthy config.kmsKeyName ||
      strTruthy config.messageRetentionDuration) = true)
    (hbuild : buildMetadata config = .ok md)
    (hset : env.setMetadataResp = .error e) :
    createTopic env config =
      ({ success := false, topicName := none, created := none, error := some e },
       [PubSubCall.existsCall (.ok false), PubSubCall.createCall (.ok ()),
        PubSubCall.setMetadataCall md (.error e)]) ∧
    applyCalls ⟨false, none⟩ (createTopic env config).2 = ⟨true, none⟩ := by
  have key : createTopic env config =
      ({ success := false, topicName := none, created := none, error := some e },
       [PubSubCall.existsCall (.ok false), PubSubCall.createCall (.ok ()),
        PubSubCall.setMetadataCall md (.error e)]) := by
    simp [createTopic, hval, checkTopicExists, hex, hcreate, hreq, hbuild, hset]
  refine ⟨key, ?_⟩
  rw [key]
  simp [applyCalls, applyCall]

theorem claim_C2_witness :
    createTopic ⟨"p", .ok false, .ok (), .error "metadata update failed"⟩
        ⟨"events-topic", false, some "\x7b\"env\":\"prod\"\x7d", none, some "7d"⟩ =
      ({ success := false, topicName := none, created := none,
         error := some "metadata update failed" },
       [PubSubCall.existsCall (.ok false), PubSubCall.createCall (.ok ()),
        PubSubCall.setMetadataCall
          { labels := some [("env", "prod")], kmsKeyName := none,
            messageRetentionDuration := some { seconds := some 604800, nanos := none } }
          (.error "metadata update failed")]) :=
  (claim_C2 ⟨"p", .ok false, .ok (), .error "metadata update failed"⟩
    ⟨"events-topic", false, some "\x7b\"env\":\"prod\"\x7d", none, some "7d"⟩
    { labels := some [("env", "prod")], kmsKeyName := none,
      messageRetentionDuration := some { seconds := some 604800, nanos := none } }
    "metadata update failed" rfl rfl rfl rfl rfl rfl).1

/-- C8: with skipIfExists set and the topic already existing, one invocation
leaves the service state unchanged, so a second invocation with the same
config yields the identical TopicResult. -/
theorem claim_C8 (projectId : String) (s : ServiceState) (config : TopicConfig)
    (hskip : config.skipIfExists = true) (hex : s.topicExists = true) :
    (runCreateTopic projectId s config).2 = s ∧
    (runCreateTopic projectId (runCreateTopic projectId s config).2 config).1 =
      (runCreateTopic projectId s config).1 := by
  have hstate : (runCreateTopic projectId s config).2 = s := by
    unfold runCreateTopic
    cases hval : validateTopicName config.topicName with
    | error e => simp [createTopic, hval, applyCalls]
    | ok u => simp [createTopic, hval, envOfState, checkTopicExists, hex, hskip,
        applyCalls, applyCall]
  exact ⟨hstate, by rw [hstate]⟩

/-- C9 counterexample: the boundary parsing of skip-if-exists never rejects
an unrecognized boolean spelling — "yes" and "1" are silently treated as
false (the parse is a total Boolean function with no error outcome), while
case-insensitive "true" enables skip and empty input defaults to false. -/
theorem claim_C9_counterexample :
    parseSkipIfExists "yes" = false ∧ parseSkipIfExists "1" = false ∧
    parseSkipIfExists "False" = false ∧ parseSkipIfExists "TRUE" = true ∧
    parseSkipIfExists "" = false := by
  refine ⟨?_, ?_, ?_, ?_, ?_⟩ <;> decide

/-- C9 (amended): a case-insensitive, trimmed "true" enables skip, empty
input defaults to "false", and every other spelling is silently treated as
false — no spelling is rejected as an error. -/
theorem claim_C9 :
    (∀ s, parseSkipIfExists s = true ↔ jsToLowerCase (jsTrim s) = "true") ∧
    parseSkipIfExists "" = false := by
  constructor
  · intro s
    by_cases h : jsTrim s = ""
    · simp [parseSkipIfExists, h]
      decide
    · simp [parseSkipIfExists, h]
  · decide

theorem claim_C9_witness : parseSkipIfExists " TrUe " = true :=
  (claim_C9.1 " TrUe ").mpr (by decide)

theorem topicLetter_body {c : Char} (h : isTopicLetter c = true) :
    isTopicBodyChar c = true := by
  simp [isTopicBodyChar, h]

/-- C3: validateTopicName accepts exactly the strings that start with an
ASCII letter, are 3 to 255 characters long and consist only of letters,
digits and the characters . _ ~ + % - ; every other string is rejected with
the InvalidArgument message. -/
theorem claim_C3 (s : String) :
    (validateTopicName s = .ok () ↔ specTopicNameOk s) ∧
    (¬ specTopicNameOk s → validateTopicName s = .error (invalidTopicNameMsg s)) := by
  have hiff : topicPatternTest s = true ↔ specTopicNameOk s := by
    unfold topicPatternTest specTopicNameOk
    cases hd : s.data with
    | nil => simp
    | cons c rest =>
      simp only [Bool.and_eq_true, decide_eq_true_eq, List.all_eq_true, List.headD_cons,
        List.length_cons]
      constructor
      · rintro ⟨⟨⟨hl, h2⟩, h254⟩, hall⟩
        refine ⟨by omega, by omega, hl, ?_⟩
        intro x hx
        rcases List.mem_cons.mp hx with rfl | hx
        · exact topicLetter_body hl
        · exact hall x hx
      · rintro ⟨h3, h255, hl, hall⟩
        exact ⟨⟨⟨hl, by omega⟩, by omega⟩,
          fun x hx => hall x (List.mem_cons_of_mem _ hx)⟩
  have main : validateTopicName s = .ok () ↔ specTopicNameOk s := by
    rw [← hiff]
    unfold validateTopicName
    cases h : topicPatternTest s
    · simp
    · simp
  refine ⟨main, fun hspec => ?_⟩
  cases h : topicPatternTest s
  · simp [validateTopicName, h]
  · exact absurd (main.mp (by simp [validateTopicName, h])) hspec

theorem claim_C3_witness :
    validateTopicName "events-topic" = .ok () ∧
    validateTopicName "9bad" = .error (invalidTopicNameMsg "9bad") ∧
    validateTopicName "ab" = .error (invalidTopicNameMsg "ab") ∧
    validateTopicName "a/b/c" = .error (invalidTopicNameMsg "a/b/c") :=
  ⟨(claim_C3 "events-topic").1.mpr (by unfold specTopicNameOk; decide),
   (claim_C3 "9bad").2 (by unfold specTopicNameOk; decide),
   (claim_C3 "ab").2 (by unfold specTopicNameOk; decide),
   (claim_C3 "a/b/c").2 (by unfold specTopicNameOk; decide)⟩

theorem claim_C8_witness :
    (runCreateTopic "p" ⟨true, none⟩ ⟨"events-topic", true, none, none, none⟩).2 =
      ⟨true, none⟩ ∧
    (runCreateTopic "p"
        (runCreateTopic "p" ⟨true, none⟩ ⟨"events-topic", true, none, none, none⟩).2
        ⟨"events-topic", true, none, none, none⟩).1 =
      (runCreateTopic "p" ⟨true, none⟩ ⟨"events-topic", true, none, none, none⟩).1 :=
  claim_C8 "p" ⟨true, none⟩ ⟨"events-topic", true, none, none, none⟩ rfl rfl

theorem unit_beq_true {u : Char} (hu : u = 'd' ∨ u = 'h' ∨ u = 'm' ∨ u = 's') :
    (u == 'd' || u == 'h' || u == 'm' || u == 's') = true := by
  rcases hu with rfl | rfl | rfl | rfl <;> rfl

theorem durMatchAux_append (ds : List Char) (u : Char)
    (hd : ∀ c ∈ ds, isDigitChar c = true)
    (hu : u = 'd' ∨ u = 'h' ∨ u = 'm' ∨ u = 's') :
    durMatchAux (ds ++ [u]) = some (ds, u) := by
  induction ds with
  | nil => simp [durMatchAux, unit_beq_true hu]
  | cons c ds ih =>
    have hc : isDigitChar c = true := hd c (List.mem_cons_self c ds)
    have hd' : ∀ x ∈ ds, isDigitChar x = true :=
      fun x hx => hd x (List.mem_cons_of_mem _ hx)
    cases ds with
    | nil => simp [durMatchAux, hc, unit_beq_true hu]
    | cons c' ds' =>
      have htail := ih hd'
      simp only [List.cons_append] at htail ⊢
      simp [durMatchAux, hc, htail]

theorem durMatchAux_some :
    ∀ cs ds u, durMatchAux cs = some (ds, u) →
      cs = ds ++ [u] ∧ (∀ c ∈ ds, isDigitChar c = true) ∧
      (u = 'd' ∨ u = 'h' ∨ u = 'm' ∨ u = 's') := by
  intro cs
  induction cs with
  | nil => intro ds u h; simp [durMatchAux] at h
  | cons c cs ih =>
    intro ds u h
    cases cs with
    | nil =>
      by_cases hc : (c == 'd' || c == 'h' || c == 'm' || c == 's') = true
      · simp only [durMatchAux, hc, if_true, Option.some.injEq, Prod.mk.injEq] at h
        obtain ⟨h1, h2⟩ := h
        subst h1; subst h2
        refine ⟨rfl, by simp, ?_⟩
        have hc' := hc
        simp only [Bool.or_eq_true, beq_iff_eq] at hc'
        tauto
      · simp only [durMatchAux, hc, if_false] at h
        simp at hc
        simp [hc] at h
    | cons c' cs' =>
      by_cases hc : isDigitChar c = true
      · simp only [durMatchAux, hc, if_true] at h
        cases hm : durMatchAux (c' :: cs') with
        | none => rw [hm] at h; simp at h
        | some p =>
          rw [hm] at h
          simp only [Option.some.injEq, Prod.mk.injEq] at h
          obtain ⟨h1, h2⟩ := h
          obtain ⟨heq, hdig, hun⟩ := ih p.1 p.2 (by rw [hm])
          subst h2
          refine ⟨?_, ?_, hun⟩
          · rw [← h1, heq]; rfl
          · intro x hx
            rw [← h1] at hx
            rcases List.mem_cons.mp hx with rfl | hx
            · exact hc
            · exact hdig x hx
      · simp only [durMatchAux] at h
        simp [hc] at h

theorem durationMatch_eq_some {s : String} {ds : List Char} {u : Char} :
    durationMatch s = some (ds, u) ↔
      (durMatchAux s.data = some (ds, u) ∧ ds ≠ []) := by
  unfold durationMatch
  cases hm : durMatchAux s.data with
  | none => simp
  | some p =>
    by_cases he : p.1.isEmpty = true
    · simp only [he, if_true]
      constructor
      · intro h
        exact absurd h (by simp)
      · rintro ⟨h1, h2⟩
        injection h1 with h1
        rw [h1] at he
        simp only [List.isEmpty_iff] at he
        exact absurd he h2
    · have he' : p.1.isEmpty = false := by simpa using he
      simp only [he', if_false]
      constructor
      · intro h
        refine ⟨h, ?_⟩
        injection h with h
        simp only [Prod.mk.injEq] at h
        intro hds
        rw [h.1, hds] at he'
        simp at he'
      · exact fun h => h.1

theorem parseDuration_isOk_iff (s : String) :
    (parseDuration s).isOk = true ↔ specDurationPattern s := by
  constructor
  · intro h
    unfold parseDuration at h
    cases hm : durationMatch s with
    | none => rw [hm] at h; simp [Except.isOk, Except.toBool] at h
    | some p =>
      obtain ⟨haux, hne⟩ := durationMatch_eq_some.mp (by rw [hm])
      obtain ⟨heq, hdig, hun⟩ := durMatchAux_some s.data p.1 p.2 haux
      exact ⟨p.1, p.2, heq, hne, hdig, hun⟩
  · rintro ⟨ds, u, heq, hne, hdig, hun⟩
    have haux : durMatchAux s.data = some (ds, u) := by
      rw [heq]; exact durMatchAux_append ds u hdig hun
    have hd : durationMatch s = some (ds, u) := durationMatch_eq_some.mpr ⟨haux, hne⟩
    simp [parseDuration, hd, Except.isOk, Except.toBool]

theorem parseDuration_matched (ds : List Char) (u : Char)
    (hne : ds ≠ []) (hdig : ∀ c ∈ ds, isDigitChar c = true)
    (hun : u = 'd' ∨ u = 'h' ∨ u = 'm' ∨ u = 's') :
    parseDuration (String.mk (ds ++ [u])) =
      .ok { seconds := some (digitsToNat ds * unitFactor u), nanos := none } := by
  have haux : durMatchAux (String.mk (ds ++ [u])).data = some (ds, u) :=
    durMatchAux_append ds u hdig hun
  have hd : durationMatch (String.mk (ds ++ [u])) = some (ds, u) :=
    durationMatch_eq_some.mpr ⟨haux, hne⟩
  simp [parseDuration, hd]

theorem parseDuration_nanos (s : String) (d : JsonDuration)
    (h : parseDuration s = .ok d) : d.nanos = none := by
  unfold parseDuration at h
  cases hm : durationMatch s with
  | none => rw [hm] at h; simp at h
  | some p =>
    rw [hm] at h
    simp only [Except.ok.injEq] at h
    rw [← h]

/-- C6: parseDuration rejects exactly the strings not matching
(\d+)([dhms]) anchored at both ends; a matching string of digits ds and
unit u yields seconds = value(ds) × factor(u) with d→86400, h→3600, m→60,
s→1, the nanos field is never populated, "7d"→604800s, "600s"→600s,
"1h"→3600s, and "5x" and "d5" are rejected. -/
theorem claim_C6 :
    (∀ s, (parseDuration s).isOk = true ↔ specDurationPattern s) ∧
    (∀ ds u, ds ≠ [] → (∀ c ∈ ds, isDigitChar c = true) →
      (u = 'd' ∨ u = 'h' ∨ u = 'm' ∨ u = 's') →
      parseDuration (String.mk (ds ++ [u])) =
        .ok { seconds := some (digitsToNat ds * unitFactor u), nanos := none }) ∧
    (unitFactor 'd' = 86400 ∧ unitFactor 'h' = 3600 ∧
      unitFactor 'm' = 60 ∧ unitFactor 's' = 1) ∧
    (∀ s d, parseDuration s = .ok d → d.nanos = none) ∧
    parseDuration "7d" = .ok { seconds := some 604800, nanos := none } ∧
    parseDuration "600s" = .ok { seconds := some 600, nanos := none } ∧
    parseDuration "1h" = .ok { seconds := some 3600, nanos := none } ∧
    (parseDuration "5x").isOk = false ∧
    (parseDuration "d5").isOk = false :=
  ⟨parseDuration_isOk_iff, parseDuration_matched, ⟨rfl, rfl, rfl, rfl⟩,
   parseDuration_nanos, rfl, rfl, rfl, rfl, rfl⟩

theorem claim_C6_witness :
    parseDuration "30m" = .ok { seconds := some 1800, nanos := none } := by
  have h := claim_C6.2.1 ['3', '0'] 'm' (by simp) (by decide)
    (Or.inr (Or.inr (Or.inl rfl)))
  have e : digitsToNat ['3', '0'] * unitFactor 'm' = 1800 := by decide
  rw [e] at h
  exact h

theorem checkLabelValues_ok_of_strings :
    ∀ kvs : List (String × JSValue),
      (∀ kv ∈ kvs, ∃ t, kv.2 = JSValue.str t) →
      checkLabelValues kvs = .ok (kvs.map fun kv => (kv.1, jsStrVal kv.2)) := by
  intro kvs
  induction kvs with
  | nil => intro _; rfl
  | cons kv rest ih =>
    intro h
    obtain ⟨k, v⟩ := kv
    obtain ⟨t, ht⟩ := h (k, v) (List.mem_cons_self _ _)
    dsimp only at ht
    subst ht
    have hrest := ih fun x hx => h x (List.mem_cons_of_mem _ hx)
    simp [checkLabelValues, hrest, jsStrVal]

theorem checkLabelValues_err_offender :
    ∀ (pre : List (String × JSValue)) (k : String) (v : JSValue)
      (post : List (String × JSValue)),
      (∀ kv ∈ pre, ∃ t, kv.2 = JSValue.str t) → (∀ t, v ≠ JSValue.str t) →
      checkLabelValues (pre ++ (k, v) :: post) = .error (labelTypeErrorMsg k v) := by
  intro pre
  induction pre with
  | nil =>
    intro k v post _ hv
    cases v with
    | str t => exact absurd rfl (hv t)
    | null => rfl
    | bool b => rfl
    | num l => rfl
    | arr es => rfl
    | obj es => rfl
  | cons kv pre ih =>
    intro k v post hpre hv
    obtain ⟨k', v'⟩ := kv
    obtain ⟨t, ht⟩ := hpre (k', v') (List.mem_cons_self _ _)
    dsimp only at ht
    subst ht
    have hrest := ih k v post (fun x hx => hpre x (List.mem_cons_of_mem _ hx)) hv
    simp [checkLabelValues, hrest]

theorem checkLabelValues_isOk_iff :
    ∀ kvs : List (String × JSValue),
      (checkLabelValues kvs).isOk = true ↔ ∀ kv ∈ kvs, ∃ t, kv.2 = JSValue.str t := by
  intro kvs
  induction kvs with
  | nil => simp [checkLabelValues, Except.isOk, Except.toBool]
  | cons kv rest ih =>
    obtain ⟨k, v⟩ := kv
    cases v
    case str t =>
      cases hr : checkLabelValues rest with
      | ok ls =>
        simp only [checkLabelValues, hr, Except.isOk, Except.toBool]
        constructor
        · intro _ kv hkv
          rcases List.mem_cons.mp hkv with rfl | hkv
          · exact ⟨t, rfl⟩
          · exact (ih.mp (by simp [hr, Except.isOk, Except.toBool])) kv hkv
        · intro _; trivial
      | error e =>
        simp only [checkLabelValues, hr, Except.isOk, Except.toBool]
        constructor
        · intro hfalse; cases hfalse
        · intro hall
          have h2 := ih.mpr fun x hx => hall x (List.mem_cons_of_mem _ hx)
          rw [hr] at h2
          simp [Except.isOk, Except.toBool] at h2
    all_goals
      exact ⟨fun hfalse => by
          simp [checkLabelValues, Except.isOk, Except.toBool] at hfalse,
        fun hall => by
          obtain ⟨t, ht⟩ := hall _ (List.mem_cons_self _ _)
          simp at ht⟩

/-- C7: parseLabels wraps any JSON.parse failure in a parse-failure message;
for a JSON object it fails exactly when some value is not a string, naming
the first offending key and its JavaScript type, and otherwise returns the
key-to-string mapping. -/
theorem claim_C7 :
    (∀ s e, jsonParse s = .error e →
      parseLabels s = .error ("Failed to parse labels: " ++ e)) ∧
    (∀ s kvs, jsonParse s = .ok (.obj kvs) →
      (((parseLabels s).isOk = false) ↔ ¬ ∀ kv ∈ kvs, ∃ t, kv.2 = JSValue.str t) ∧
      ((∀ kv ∈ kvs, ∃ t, kv.2 = JSValue.str t) →
        parseLabels s = .ok (kvs.map fun kv => (kv.1, jsStrVal kv.2))) ∧
      (∀ pre k v post, kvs = pre ++ (k, v) :: post →
        (∀ kv ∈ pre, ∃ t, kv.2 = JSValue.str t) → (∀ t, v ≠ JSValue.str t) →
        parseLabels s = .error ("Failed to parse labels: " ++ labelTypeErrorMsg k v))) ∧
    parseLabels "\x7b\"a\":\"1\",\"b\":\"2\"\x7d" = .ok [("a", "1"), ("b", "2")] ∧
    parseLabels "\x7b\"a\":1\x7d" =
      .error "Failed to parse labels: Label \"a\" must be a string, got number. All labels must be strings." ∧
    parseLabels "not json" = .error ("Failed to parse labels: " ++ "Unexpected token in JSON") := by
  refine ⟨?_, ?_, rfl, rfl, rfl⟩
  · intro s e h
    unfold parseLabels
    rw [h]
  · intro s kvs h
    have hbody : parseLabels s = (match checkLabelValues kvs with
        | .ok ls => .ok ls
        | .error e => .error ("Failed to parse labels: " ++ e)) := by
      unfold parseLabels
      rw [h]
      rfl
    refine ⟨?_, ?_, ?_⟩
    · rw [hbody]
      cases hc : checkLabelValues kvs with
      | ok ls =>
        simp only [Except.isOk, Except.toBool, not_not, iff_false, Bool.true_eq_false,
          false_iff, not_not]
        exact (checkLabelValues_isOk_iff kvs).mp (by simp [hc, Except.isOk, Except.toBool])
      | error e =>
        simp only [Except.isOk, Except.toBool, true_iff]
        intro hall
        have h2 := (checkLabelValues_isOk_iff kvs).mpr hall
        rw [hc] at h2
        simp [Except.isOk, Except.toBool] at h2
    · intro hall
      rw [hbody, checkLabelValues_ok_of_strings kvs hall]
    · intro pre k v post hkvs hpre hv
      rw [hbody, hkvs, checkLabelValues_err_offender pre k v post hpre hv]

theorem claim_C7_witness :
    parseLabels "\x7b\"x\":true\x7d" =
      .error ("Failed to parse labels: " ++ labelTypeErrorMsg "x" (JSValue.bool true)) := by
  have h := (claim_C7.2.1 "\x7b\"x\":true\x7d" [("x", JSValue.bool true)] rfl).2.2
  exact h [] "x" (JSValue.bool true) [] rfl (by simp) (fun t => by simp)

/-- C10: parseLabels accepts valid JSON that is not an object: a number or
boolean input yields the empty mapping and a string input yields an
index-keyed character mapping, because values are checked per entry with no
check that the document is an object; only null is rejected, its
Object.entries TypeError being wrapped as a parse failure. -/
theorem claim_C10 :
    (jsonParse "5").isOk = true ∧ parseLabels "5" = .ok [] ∧
    (jsonParse "true").isOk = true ∧ parseLabels "true" = .ok [] ∧
    (jsonParse "\"ab\"").isOk = true ∧
    parseLabels "\"ab\"" = .ok [("0", "a"), ("1", "b")] ∧
    (jsonParse "null").isOk = true ∧
    parseLabels "null" =
      .error "Failed to parse labels: Cannot convert undefined or null to object" :=
  ⟨rfl, rfl, rfl, rfl, rfl, rfl, rfl, rfl⟩
